import Mathlib

/-!
Verification development for the self-update subsystem of TextConverter Pro.

The definitions below are a shallow embedding of the Python sources:
  * src/src/utils/version_manager.py   (Version and its ordering)
  * src/src/utils/github_updater.py    (GitHubRelease, cache, discovery, download, install)
  * src/src/utils/error_handler.py     (retry_on_error, error_boundary / safe_execute)
  * src/dmg_build/.../src/ui/update_manager.py (UpdateManager in-progress flag)

Machine-level conventions: Python strings are modelled by Lean `String`,
with Python's `<` on strings embedded as code-point-lexicographic
comparison on the character list (`charsLtB`); Python `None`-able strings
are `Option String`; timestamps are natural-number seconds; exceptions are
an explicit `PyErr` error channel in `Except`.
-/

/-! ### Python string primitives used by the sources -/

/-- Python `c1 < c2` on single characters: comparison of code points. -/
def charLtB (c d : Char) : Bool :=
  decide (c.toNat < d.toNat)

/-- Python string `<`: lexicographic on code points, a proper prefix is
smaller. Embedded on character lists so that it evaluates in the kernel. -/
def charsLtB : List Char → List Char → Bool
  | [], [] => false
  | [], _ :: _ => true
  | _ :: _, [] => false
  | c :: cs, d :: ds => charLtB c d || (c = d && charsLtB cs ds)

/-- Python `str.endswith(pat)`. -/
def listEndsWith (s pat : List Char) : Bool :=
  decide (s.drop (s.length - pat.length) = pat)

/-- `pat` is a leading segment of `s` (helper for substring search). -/
def listLeads : List Char → List Char → Bool
  | [], _ => true
  | _ :: _, [] => false
  | p :: ps, c :: cs => p = c && listLeads ps cs

/-- Python `pat in s` substring test. -/
def listContainsSub : List Char → List Char → Bool
  | [], pat => decide (pat = [])
  | s@(_ :: rest), pat => listLeads pat s || listContainsSub rest pat

/-- Python whitespace (ASCII) for `str.strip()`. -/
def isSpaceCh (c : Char) : Bool :=
  c = ' ' || c = '\t' || c = '\n' || c = '\r' || c.toNat = 11 || c.toNat = 12

/-- Python `str.strip()`: whitespace removed from both ends. -/
def listStrip (cs : List Char) : List Char :=
  ((cs.dropWhile isSpaceCh).reverse.dropWhile isSpaceCh).reverse

/-- Python `str.lower()` restricted to ASCII letters (the only characters
the sources compare after lowering). -/
def charLower (c : Char) : Char :=
  if c.toNat ≥ 65 ∧ c.toNat ≤ 90 then Char.ofNat (c.toNat + 32) else c

def strLower (s : String) : String :=
  String.mk (s.toList.map charLower)

/-! ### Version (src/src/utils/version_manager.py) -/

/-- `Version` dataclass: semantic version representation. -/
structure Version where
  major : Nat
  minor : Nat
  patch : Nat
  prerelease : Option String := none
  build : Option String := none
deriving DecidableEq, Repr

/-- Python truthiness of the `prerelease` field (`if self.prerelease:`):
`None` and the empty string are falsy. -/
def preTruthy : Option String → Bool
  | none => false
  | some s => !(s.isEmpty)

/-- Lexicographic `<` on the `(major, minor, patch)` triplet, as produced
by Python tuple comparison. -/
def tripLtB (a b : Nat × Nat × Nat) : Bool :=
  decide (a.1 < b.1) ||
    (decide (a.1 = b.1) &&
      (decide (a.2.1 < b.2.1) ||
        (decide (a.2.1 = b.2.1) && decide (a.2.2 < b.2.2))))

/-- The `(major, minor, patch)` tuple built in `Version.__lt__`. -/
def Version.trip (v : Version) : Nat × Nat × Nat :=
  (v.major, v.minor, v.patch)

/-- `Version.__lt__`: compare triplets lexicographically; for equal
triplets a (truthy) prerelease sorts before no prerelease; two truthy
prereleases compare as plain strings. -/
def Version.ltB (a b : Version) : Bool :=
  if a.trip ≠ b.trip then tripLtB a.trip b.trip
  else if preTruthy a.prerelease && !(preTruthy b.prerelease) then true
  else if !(preTruthy a.prerelease) && preTruthy b.prerelease then false
  else if preTruthy a.prerelease && preTruthy b.prerelease then
    charsLtB (a.prerelease.getD "").toList (b.prerelease.getD "").toList
  else false

/-- `Version.__eq__`: componentwise on major/minor/patch/prerelease;
`build` is ignored. -/
def Version.eqB (a b : Version) : Bool :=
  decide (a.major = b.major) && decide (a.minor = b.minor) &&
    decide (a.patch = b.patch) && decide (a.prerelease = b.prerelease)

/-- `Version.__le__`: `self < other or self == other`. -/
def Version.leB (a b : Version) : Bool :=
  a.ltB b || a.eqB b

/-- `Version.__gt__`: `not self <= other`. -/
def Version.gtB (a b : Version) : Bool :=
  !(a.leB b)

/-- `Version.__ge__`: `not self < other`. -/
def Version.geB (a b : Version) : Bool :=
  !(a.ltB b)

/-- Data-model invariant stated in the spec: a present prerelease tag is
non-empty (`Version.from_string` can only produce such versions, since the
regex group requires at least one character). -/
def Version.wf (v : Version) : Prop :=
  v.prerelease ≠ some ""

instance (v : Version) : Decidable v.wf := by
  unfold Version.wf; infer_instance

/-- `Version.is_major_update(other)`. -/
def Version.is_major_update (self other : Version) : Bool :=
  decide (other.major > self.major)

/-- `Version.is_minor_update(other)`. -/
def Version.is_minor_update (self other : Version) : Bool :=
  decide (other.major = self.major) && decide (other.minor > self.minor)

/-- `Version.is_patch_update(other)`. -/
def Version.is_patch_update (self other : Version) : Bool :=
  decide (other.major = self.major) && decide (other.minor = self.minor) &&
    decide (other.patch > self.patch)

/-- Result values of `Version.get_update_type` (the strings
"major"/"minor"/"patch"/"prerelease" in the source). -/
inductive UpdateKind
  | major
  | minor
  | patch
  | prerelease
deriving DecidableEq, Repr

/-- `Version.get_update_type(other)`: `None` when `other <= self`,
otherwise the first of major/minor/patch update tests to hold, with
"prerelease" as the final fallback. -/
def Version.get_update_type (self other : Version) : Option UpdateKind :=
  if other.leB self then none
  else if self.is_major_update other then some UpdateKind.major
  else if self.is_minor_update other then some UpdateKind.minor
  else if self.is_patch_update other then some UpdateKind.patch
  else some UpdateKind.prerelease

/-! ### Version.from_string (regex
`^(\d+)\.(\d+)\.(\d+)(?:-([a-zA-Z0-9.-]+))?(?:\+([a-zA-Z0-9.-]+))?$`
applied to the stripped input). The anchored regex is deterministic, so a
direct recursive-descent translation is faithful; character classes are
the ASCII classes of the pattern. -/

def isDigitCh (c : Char) : Bool :=
  decide (48 ≤ c.toNat) && decide (c.toNat ≤ 57)

def isIdentCh (c : Char) : Bool :=
  (decide (65 ≤ c.toNat) && decide (c.toNat ≤ 90)) ||
  (decide (97 ≤ c.toNat) && decide (c.toNat ≤ 122)) ||
  isDigitCh c || c = '.' || c = '-'

def digitsToNat (cs : List Char) : Nat :=
  cs.foldl (fun n c => n * 10 + (c.toNat - 48)) 0

/-- The optional `(?:\+BUILD)?$` tail. -/
def parseBuildTail : List Char → Option (Option String)
  | [] => some none
  | '+' :: r =>
      let b := r.takeWhile isIdentCh
      let r' := r.dropWhile isIdentCh
      if b.isEmpty || !(r'.isEmpty) then none else some (some (String.mk b))
  | _ => none

/-- The optional `(?:-PRERELEASE)?` group followed by the build tail. -/
def parsePreTail (cs : List Char) : Option (Option String × Option String) :=
  match cs with
  | '-' :: r =>
      let p := r.takeWhile isIdentCh
      let r' := r.dropWhile isIdentCh
      if p.isEmpty then none
      else (parseBuildTail r').map (fun b => (some (String.mk p), b))
  | _ => (parseBuildTail cs).map (fun b => (none, b))

/-- `Version.from_string`, returning `none` where the Python raises
`ValueError` (no regex match). -/
def Version.from_string? (s : String) : Option Version :=
  let cs := listStrip s.toList
  let d1 := cs.takeWhile isDigitCh
  let r1 := cs.dropWhile isDigitCh
  if d1.isEmpty then none else
  match r1 with
  | '.' :: r2 =>
    let d2 := r2.takeWhile isDigitCh
    let r3 := r2.dropWhile isDigitCh
    if d2.isEmpty then none else
    match r3 with
    | '.' :: r4 =>
      let d3 := r4.takeWhile isDigitCh
      let r5 := r4.dropWhile isDigitCh
      if d3.isEmpty then none else
      match parsePreTail r5 with
      | none => none
      | some (pre, bld) =>
        some { major := digitsToNat d1, minor := digitsToNat d2,
               patch := digitsToNat d3, prerelease := pre, build := bld }
    | _ => none
  | _ => none

example : Version.from_string? "1.2.3-beta.1+build.123" =
    some { major := 1, minor := 2, patch := 3,
           prerelease := some "beta.1", build := some "build.123" } := by decide

example : Version.from_string? "1.0.0" =
    some { major := 1, minor := 0, patch := 0 } := by decide

example : Version.from_string? "1.0" = none := by decide

example : Version.from_string? "1.0.0-" = none := by decide

/-! ### GitHubRelease and release parsing (src/src/utils/github_updater.py) -/

/-- `GitHubRelease` dataclass. `download_url` is `Option String` because
`_parse_release_data` can store Python `None` there (when neither a
matching asset nor a `zipball_url` is present in the API data). -/
structure GitHubRelease where
  tag_name : String
  name : String
  body : String
  published_at : String
  html_url : String
  download_url : Option String
  prerelease : Bool
  size_bytes : Nat
deriving DecidableEq, Repr

/-- The `GitHubRelease.version` property: `tag_name.lstrip('v')` then
`Version.from_string`; `none` where the Python raises `ValueError`. -/
def GitHubRelease.version? (r : GitHubRelease) : Option Version :=
  Version.from_string? (String.mk (r.tag_name.toList.dropWhile (· = 'v')))

/-- One element of the `assets` array in a GitHub API release object.
`browser_download_url` is optional because the source reads it with
`asset.get('browser_download_url')` (default `None`); `size` is read with
`asset.get('size', 0)`. -/
structure AssetData where
  name : String
  browser_download_url : Option String
  size : Nat
deriving DecidableEq, Repr

/-- A GitHub API release object, restricted to the fields the source
reads. `zipball_url` is optional (`data.get('zipball_url')`). -/
structure ReleaseData where
  tag_name : String
  name : String
  body : String
  published_at : String
  html_url : String
  zipball_url : Option String
  prerelease : Bool
  assets : List AssetData
deriving DecidableEq, Repr

/-- The per-asset test in `_parse_release_data`:
`name.endswith('.zip') or name.endswith('.app.zip') or 'textconverter' in name`
on the lowercased name. -/
def asset_matches (a : AssetData) : Bool :=
  let n := (strLower a.name).toList
  listEndsWith n ".zip".toList || listEndsWith n ".app.zip".toList ||
    listContainsSub n "textconverter".toList

/-- The `for asset in assets: ... break` loop: first matching asset's
`(browser_download_url, size)`. -/
def find_download_asset : List AssetData → Option (Option String × Nat)
  | [] => none
  | a :: rest =>
      if asset_matches a then some (a.browser_download_url, a.size)
      else find_download_asset rest

/-- Python falsiness of an optional string (`if not download_url:`):
`None` and the empty string are falsy. -/
def falsyOptStr : Option String → Bool
  | none => true
  | some s => s.isEmpty

/-- `GitHubUpdater._parse_release_data`. -/
def parse_release_data (d : ReleaseData) : GitHubRelease :=
  let found := find_download_asset d.assets
  let dl0 : Option String := match found with
    | some (u, _) => u
    | none => none
  let sz : Nat := match found with
    | some (_, s) => s
    | none => 0
  let dl := if falsyOptStr dl0 then d.zipball_url else dl0
  { tag_name := d.tag_name, name := d.name, body := d.body,
    published_at := d.published_at, html_url := d.html_url,
    download_url := dl, prerelease := d.prerelease, size_bytes := sz }

/-! ### Release cache (`_get_cached_release` / `_cache_release`) -/

/-- `cache_duration = timedelta(hours=1)`, in seconds. -/
def cache_duration : Nat := 3600

/-- On-disk state of the cache file. `corrupt` stands for any state on
which `json.load`, the `GitHubRelease(**...)` construction, or the
`cached_at` timestamp parse raises (all are caught by the bare
`except Exception` and turned into a miss). An `entry` also carries the
release whose own tag may still fail to parse (handled separately, since
`cached_release.version` is evaluated inside the same `try`). -/
inductive CacheFile
  | absent
  | corrupt
  | entry (cachedAt : Nat) (release : GitHubRelease)
deriving DecidableEq, Repr

/-- `GitHubUpdater._get_cached_release`, with `now` the value of
`datetime.now()`. Timestamps are seconds; `now - cachedAt` with natural
subtraction agrees with the Python `timedelta` comparison (a cache stamped
in the future gives a negative timedelta, which is not `> 1 hour`, just as
truncated subtraction gives `0`). Every exception path returns `None`. -/
def get_cached_release (current : Version) (file : CacheFile) (now : Nat) :
    Option GitHubRelease :=
  match file with
  | CacheFile.absent => none
  | CacheFile.corrupt => none
  | CacheFile.entry cachedAt r =>
      if now - cachedAt > cache_duration then none
      else
        match r.version? with
        | none => none
        | some v => if v.gtB current then some r else none

/-- `GitHubUpdater._cache_release`: overwrite the file with
`{cached_at: now, release}`; a write failure is swallowed and leaves the
previous file state. -/
def cache_release (file : CacheFile) (now : Nat) (r : GitHubRelease)
    (writeOk : Bool) : CacheFile :=
  if writeOk then CacheFile.entry now r else file

/-! ### Exceptions, HTTP and retry (error_handler.py, fetchers) -/

/-- The exception kinds the embedded code distinguishes. -/
inductive PyErr
  | httpError (code : Nat)
  | urlError
  | valueError
  | contentTooShort
  | osError
  | configurationError
deriving DecidableEq, Repr

/-- A completed HTTP exchange as seen by `urllib.request.urlopen`:
either the server answered with a status and a body, or the transport
failed. The body is already decoded: `none` models a body on which
`json.loads` raises. -/
inductive HttpOutcome (β : Type)
  | answered (status : Nat) (body : Option β)
  | netFail
deriving DecidableEq, Repr

/-- `urllib.request.urlopen`: a non-2xx status raises `HTTPError`; a
transport failure raises `URLError`; otherwise the response object (with
its status and body) is returned. -/
def urlopen {β : Type} : HttpOutcome β → Except PyErr (Nat × Option β)
  | HttpOutcome.answered st b =>
      if 200 ≤ st ∧ st < 300 then Except.ok (st, b)
      else Except.error (PyErr.httpError st)
  | HttpOutcome.netFail => Except.error PyErr.urlError

/-- `GitHubUpdater._fetch_latest_stable_release` (single attempt, the
`retry_on_error` wrapper is modelled separately): 404 is translated to
`None` ("no releases"), any other `HTTPError` re-raised, a 2xx response
with status other than 200 returns `None`, a JSON parse failure raises. -/
def fetch_latest_stable_release (o : HttpOutcome ReleaseData) :
    Except PyErr (Option ReleaseData) :=
  match urlopen o with
  | Except.ok (st, b) =>
      if st = 200 then
        match b with
        | some d => Except.ok (some d)
        | none => Except.error PyErr.valueError
      else Except.ok none
  | Except.error (PyErr.httpError c) =>
      if c = 404 then Except.ok none else Except.error (PyErr.httpError c)
  | Except.error e => Except.error e

/-- `GitHubUpdater._fetch_all_releases` (single attempt): its only
handler is the bare `except Exception` which logs and re-raises, so every
`HTTPError` — 404 included — propagates. -/
def fetch_all_releases (o : HttpOutcome (List ReleaseData)) :
    Except PyErr (Option (List ReleaseData)) :=
  match urlopen o with
  | Except.ok (st, b) =>
      if st = 200 then
        match b with
        | some ds => Except.ok (some ds)
        | none => Except.error PyErr.valueError
      else Except.ok none
  | Except.error e => Except.error e

/-- The loop body of the `retry_on_error` decorator: `attempts i` is the
outcome of the i-th call of the wrapped function; `rem` is the number of
retries still allowed. When the last allowed attempt fails, its exception
is re-raised. -/
def retryGo {α : Type} (attempts : Nat → Except PyErr α) :
    Nat → Nat → Except PyErr α
  | i, 0 => attempts i
  | i, rem + 1 =>
      match attempts i with
      | Except.ok a => Except.ok a
      | Except.error _ => retryGo attempts (i + 1) rem

/-- `retry_on_error(max_retries=n)`: up to `n + 1` attempts. -/
def retry_on_error {α : Type} (max_retries : Nat)
    (attempts : Nat → Except PyErr α) : Except PyErr α :=
  retryGo attempts 0 max_retries

/-- `safe_execute`: run the operation, convert any exception into the
default value. -/
def safe_execute {α : Type} (default_return : α) (r : Except PyErr α) : α :=
  match r with
  | Except.ok a => a
  | Except.error _ => default_return

/-- The `error_boundary(default_return=d)` decorator is `safe_execute`
applied to the wrapped call. -/
def error_boundary {α : Type} (default_return : α) (r : Except PyErr α) : α :=
  safe_execute default_return r

/-! ### check_for_updates (single attempt of the decorated body) -/

/-- `GitHubUpdater.check_for_updates` (one attempt of the body wrapped by
`retry_on_error(max_retries=3)`), as a function of the updater's
configuration, the cache file state, the clock, and the outcomes of the
two fetch helpers (each given post-retry, as `_fetch_*` delivers them).
Returns the optional release paired with the resulting cache file state;
`writeOk` says whether the swallowed-on-failure cache write succeeds. -/
def check_for_updates_once (current : Version) (check_prereleases : Bool)
    (force_check : Bool) (cache : CacheFile) (now : Nat) (writeOk : Bool)
    (stableFetch : Except PyErr (Option ReleaseData))
    (allFetch : Except PyErr (Option (List ReleaseData))) :
    Except PyErr (Option GitHubRelease × CacheFile) :=
  match (if force_check then none else get_cached_release current cache now) with
  | some r => Except.ok (some r, cache)
  | none =>
    match (if check_prereleases then
             match allFetch with
             | Except.error e => Except.error e
             | Except.ok none => Except.ok none
             | Except.ok (some []) => Except.ok none
             | Except.ok (some (d :: _)) => Except.ok (some d)
           else stableFetch) with
    | Except.error e => Except.error e
    | Except.ok none => Except.ok (none, cache)
    | Except.ok (some latest) =>
        let release := parse_release_data latest
        match release.version? with
        | none => Except.error PyErr.valueError
        | some rv =>
            if rv.gtB current then
              Except.ok (some release, cache_release cache now release writeOk)
            else Except.ok (none, cache)

/-! ### download_update and urlretrieve -/

/-- Outcome of the single `urllib.request.urlretrieve` call in
`download_update`. `truncated` is the case where the server declared a
content length and the stream ended short of it. -/
inductive TransferOutcome
  | success (size : Nat)
  | httpStatusError (code : Nat)
  | truncated (received declared : Nat)
  | transportMid (received : Nat)
  | transportStart
deriving DecidableEq, Repr

/-- CPython `urlretrieve(url, filename, ...)` semantics: a non-2xx status
raises `HTTPError` before the local file is opened; a transport failure
before any data likewise leaves no file; a mid-stream transport failure or
a short read (`ContentTooShortError`, raised when the declared size is
known and not reached) leaves the partial file on disk. It never deletes a
caller-named file. The second component is the byte count of the file at
the download path (`none` = no file). -/
def urlretrieve : TransferOutcome → Except PyErr Unit × Option Nat
  | TransferOutcome.success n => (Except.ok (), some n)
  | TransferOutcome.httpStatusError c => (Except.error (PyErr.httpError c), none)
  | TransferOutcome.truncated recv _ => (Except.error PyErr.contentTooShort, some recv)
  | TransferOutcome.transportMid recv => (Except.error PyErr.urlError, some recv)
  | TransferOutcome.transportStart => (Except.error PyErr.urlError, none)

/-- The body of `GitHubUpdater.download_update` (inside the
`error_boundary` decorator): on success return the download path (modelled
as `Unit`); the `except` clause only logs and re-raises, in particular it
does not remove the partial file. The second component is the state of the
file at the download path when the call returns. -/
def download_update_body (o : TransferOutcome) :
    Except PyErr (Option Unit) × Option Nat :=
  match urlretrieve o with
  | (Except.ok _, f) => (Except.ok (some ()), f)
  | (Except.error e, f) => (Except.error e, f)

/-- `download_update` as callers see it: the body wrapped by
`error_boundary(default_return=None)`. -/
def download_update (o : TransferOutcome) : Option Unit × Option Nat :=
  (error_boundary none (download_update_body o).1, (download_update_body o).2)

example : download_update (TransferOutcome.success 7) = (some (), some 7) := by decide

example : download_update (TransferOutcome.truncated 5 10) = (none, some 5) := by decide

/-! ### install_update (`install_update`, `_create_backup`,
`_find_app_bundle`, `_replace_application`, `_restore_backup`)

The filesystem is abstracted to the three locations the installer
touches: the canonical bundle path, the `<name>.app.old` aside path next
to it, and the timestamped backup location. A location holds `orig` (the
pre-install bundle), `newer` (the fully extracted new bundle), or
`damaged` (a partially written or partially deleted tree), or nothing.
Primitive semantics: `shutil.move` is an atomic same-volume rename
(failure changes nothing); a failing `shutil.copytree` leaves a partially
populated destination; a failing `shutil.rmtree` leaves a partially
deleted tree. -/

inductive BundleContent
  | orig
  | newer
  | damaged
deriving DecidableEq, Repr

instance : Fintype BundleContent :=
  ⟨⟨{BundleContent.orig, BundleContent.newer, BundleContent.damaged}, by decide⟩,
   fun c => by cases c <;> decide⟩

structure AppFS where
  canonical : Option BundleContent
  aside : Option BundleContent
  backup : Option BundleContent
deriving DecidableEq, Repr

/-- Which of the installer's fallible steps fail in a given run, plus the
two data-dependent branch outcomes (`appPathFound` for
`_get_current_app_path`, `bundleInArchive` for `_find_app_bundle`). -/
structure InstallFaults where
  appPathFound : Bool
  backupCopyFails : Bool
  extractFails : Bool
  bundleInArchive : Bool
  rmPreAsideFails : Bool
  moveAsideFails : Bool
  moveNewInFails : Bool
  rmAsideFails : Bool
  moveBackFails : Bool
  restoreRmFails : Bool
  restoreCopyFails : Bool
  unlinkFails : Bool
deriving DecidableEq, Repr

/-- The `except` clause of `install_update`: when a backup was taken (and
so exists), `_restore_backup(backup_path, current_app_path)` runs inside
its own `try` (its failure is only logged); then the exception is
re-raised and `error_boundary(default_return=False)` turns it into
`False`. `_restore_backup` removes the tree at the canonical path if
present, then copies the backup there. -/
def install_on_failure (backupMade : Bool) (f : InstallFaults) (fs : AppFS) :
    Bool × AppFS :=
  if backupMade ∧ fs.backup.isSome then
    if fs.canonical.isSome ∧ f.restoreRmFails then
      (false, { fs with canonical := some BundleContent.damaged })
    else
      let fs1 := if fs.canonical.isSome then { fs with canonical := none } else fs
      if f.restoreCopyFails then
        (false, { fs1 with canonical := some BundleContent.damaged })
      else (false, { fs1 with canonical := fs1.backup })
  else (false, fs)

/-- `GitHubUpdater.install_update(download_path, backup_current)` under a
fault schedule, starting from filesystem `fs0`. Mirrors the source line by
line: find the app path (a `None` raises `ConfigurationError` before
`backup_path` is bound, so the `except` clause hits an unbound local and
no restore runs); optional `_create_backup` (a `copytree`, which also
raises if the canonical path is missing); archive extraction;
`_find_app_bundle`; `_replace_application` with its internal
aside-move/rollback; cleanup (`download_path.unlink`). Returns the boolean
the caller sees (through `error_boundary`) and the final filesystem. -/
def install_update (backup_current : Bool) (f : InstallFaults) (fs0 : AppFS) :
    Bool × AppFS :=
  if ¬ f.appPathFound then (false, fs0)
  else if backup_current ∧ (f.backupCopyFails ∨ fs0.canonical.isNone) then
    (false, { fs0 with backup := some BundleContent.damaged })
  else
    let fs1 := if backup_current then { fs0 with backup := fs0.canonical } else fs0
    let backupMade := backup_current
    if f.extractFails then install_on_failure backupMade f fs1
    else if ¬ f.bundleInArchive then install_on_failure backupMade f fs1
    else
      -- _replace_application: clear a pre-existing aside path
      if fs1.aside.isSome ∧ f.rmPreAsideFails then
        install_on_failure backupMade f { fs1 with aside := some BundleContent.damaged }
      else
        let fs2 := if fs1.aside.isSome then { fs1 with aside := none } else fs1
        if f.moveAsideFails ∨ fs2.canonical.isNone then
          install_on_failure backupMade f fs2
        else
          let fs3 := { fs2 with aside := fs2.canonical, canonical := none }
          if f.moveNewInFails then
            -- inner except: aside exists and canonical is vacant, move back
            if f.moveBackFails then install_on_failure backupMade f fs3
            else
              install_on_failure backupMade f
                { fs3 with canonical := fs3.aside, aside := none }
          else
            let fs4 := { fs3 with canonical := some BundleContent.newer }
            if f.rmAsideFails then
              -- inner except: canonical is occupied, no move back, re-raise
              install_on_failure backupMade f
                { fs4 with aside := some BundleContent.damaged }
            else
              let fs5 := { fs4 with aside := none }
              if f.unlinkFails then install_on_failure backupMade f fs5
              else (true, fs5)

/-! ### UpdateManager in-progress flag (update_manager.py)

Each caller of `manual_check_updates` / `start_update_process` runs, in
program order: (0) read `self.update_in_progress` and give up with the
"already in progress" notification if it is set; (1) on the spawned
worker thread, set the flag; (2) run the discovery/download/install
pipeline body; (3) in the `finally` clause, clear the flag. The flag is
only read at step 0 and only written at steps 1 and 3; nothing makes
steps 0 and 1 atomic. Two callers A and B interleave under an arbitrary
schedule. -/

inductive CallerId
  | A
  | B
deriving DecidableEq, Repr

structure ThreadSt where
  pc : Nat
  rejected : Bool
  worked : Bool
deriving DecidableEq, Repr

structure UMState where
  update_in_progress : Bool
  thA : ThreadSt
  thB : ThreadSt
  active : Nat
  maxActive : Nat
  pipelines : Nat
deriving DecidableEq, Repr

def threadOf (s : UMState) : CallerId → ThreadSt
  | CallerId.A => s.thA
  | CallerId.B => s.thB

def setThread (s : UMState) (who : CallerId) (t : ThreadSt) : UMState :=
  match who with
  | CallerId.A => { s with thA := t }
  | CallerId.B => { s with thB := t }

/-- One scheduler step: run the next action of caller `who`. -/
def umStep (s : UMState) (who : CallerId) : UMState :=
  let t := threadOf s who
  match t.pc with
  | 0 =>
      if s.update_in_progress then
        setThread s who { t with pc := 4, rejected := true }
      else setThread s who { t with pc := 1 }
  | 1 =>
      { setThread s who { t with pc := 2 } with update_in_progress := true }
  | 2 =>
      let s' := setThread s who { t with pc := 3, worked := true }
      { s' with active := s.active + 1,
                maxActive := max s.maxActive (s.active + 1),
                pipelines := s.pipelines + 1 }
  | 3 =>
      { setThread s who { t with pc := 4 } with
          active := s.active - 1, update_in_progress := false }
  | _ => s

def umInit : UMState :=
  { update_in_progress := false,
    thA := { pc := 0, rejected := false, worked := false },
    thB := { pc := 0, rejected := false, worked := false },
    active := 0, maxActive := 0, pipelines := 0 }

def umRun (sched : List CallerId) : UMState :=
  sched.foldl umStep umInit

example :
    (umRun [CallerId.A, CallerId.B, CallerId.A, CallerId.A,
            CallerId.B, CallerId.B]).pipelines = 2 := by decide

/-! ### Order-theoretic facts about the embedded string comparison -/

theorem charToNat_inj {c d : Char} (h : c.toNat = d.toNat) : c = d :=
  Char.ext (UInt32.ext h)

theorem charLtB_iff {c d : Char} : charLtB c d = true ↔ c.toNat < d.toNat := by
  simp [charLtB]

theorem charLtB_self (c : Char) : charLtB c c = false := by
  simp [charLtB]

theorem charsLtB_self : ∀ s : List Char, charsLtB s s = false := by
  intro s
  induction s with
  | nil => rfl
  | cons c cs ih => simp [charsLtB, charLtB_self, ih]

theorem charsLtB_asymm : ∀ s t : List Char,
    charsLtB s t = true → charsLtB t s = false := by
  intro s
  induction s with
  | nil =>
    intro t h
    cases t with
    | nil => simp [charsLtB] at h
    | cons d ds => rfl
  | cons c cs ih =>
    intro t h
    cases t with
    | nil => simp [charsLtB] at h
    | cons d ds =>
      simp only [charsLtB, Bool.or_eq_true, Bool.and_eq_true,
        decide_eq_true_eq] at h ⊢
      rcases h with h | ⟨rfl, h⟩
      · have hlt := charLtB_iff.mp h
        have h1 : charLtB d c = false := by
          cases hdc : charLtB d c
          · rfl
          · exact absurd (charLtB_iff.mp hdc) (by omega)
        have h2 : d ≠ c := fun he => by
          have := congrArg Char.toNat he; omega
        simp [h1, h2]
      · simp [charLtB_self, ih ds h]

theorem charsLtB_trans : ∀ s t u : List Char,
    charsLtB s t = true → charsLtB t u = true → charsLtB s u = true := by
  intro s
  induction s with
  | nil =>
    intro t u h1 h2
    cases t with
    | nil => simp [charsLtB] at h1
    | cons d ds =>
      cases u with
      | nil => simp [charsLtB] at h2
      | cons e es => rfl
  | cons c cs ih =>
    intro t u h1 h2
    cases t with
    | nil => simp [charsLtB] at h1
    | cons d ds =>
      cases u with
      | nil => simp [charsLtB] at h2
      | cons e es =>
        simp only [charsLtB, Bool.or_eq_true, Bool.and_eq_true,
          decide_eq_true_eq] at h1 h2 ⊢
        rcases h1 with h1 | ⟨rfl, h1⟩
        · rcases h2 with h2 | ⟨rfl, h2⟩
          · exact Or.inl (charLtB_iff.mpr
              (Nat.lt_trans (charLtB_iff.mp h1) (charLtB_iff.mp h2)))
          · exact Or.inl h1
        · rcases h2 with h2 | ⟨rfl, h2⟩
          · exact Or.inl h2
          · exact Or.inr ⟨rfl, ih ds es h1 h2⟩

theorem charsLtB_total : ∀ s t : List Char,
    charsLtB s t = true ∨ s = t ∨ charsLtB t s = true := by
  intro s
  induction s with
  | nil =>
    intro t
    cases t with
    | nil => exact Or.inr (Or.inl rfl)
    | cons d ds => exact Or.inl rfl
  | cons c cs ih =>
    intro t
    cases t with
    | nil => exact Or.inr (Or.inr rfl)
    | cons d ds =>
      rcases Nat.lt_trichotomy c.toNat d.toNat with h | h | h
      · left
        simp only [charsLtB, Bool.or_eq_true]
        exact Or.inl (charLtB_iff.mpr h)
      · have hcd : c = d := charToNat_inj h
        subst hcd
        rcases ih ds with h' | h' | h'
        · left
          simp [charsLtB, h']
        · right; left; rw [h']
        · right; right
          simp [charsLtB, h']
      · right; right
        simp only [charsLtB, Bool.or_eq_true]
        exact Or.inl (charLtB_iff.mpr h)

theorem string_toList_inj {s t : String} (h : s.toList = t.toList) : s = t := by
  cases s; cases t; exact congrArg String.mk h

/-! ### The strict order on versions, characterized -/

/-- The prerelease slot ordering implemented by `Version.__lt__` for equal
triplets, on well-formed (non-empty-tag) versions: a tag sorts below no
tag; two tags compare as strings. -/
def preLtB : Option String → Option String → Bool
  | some _, none => true
  | some s, some t => charsLtB s.toList t.toList
  | none, _ => false

theorem preLtB_self : ∀ x : Option String, preLtB x x = false := by
  intro x
  cases x with
  | none => rfl
  | some s => simp [preLtB, charsLtB_self]

theorem preLtB_asymm : ∀ x y : Option String,
    preLtB x y = true → preLtB y x = false := by
  intro x y h
  cases x with
  | none => simp [preLtB] at h
  | some s =>
    cases y with
    | none => rfl
    | some t => exact charsLtB_asymm _ _ h

theorem preLtB_trans : ∀ x y z : Option String,
    preLtB x y = true → preLtB y z = true → preLtB x z = true := by
  intro x y z h1 h2
  cases x with
  | none => simp [preLtB] at h1
  | some s =>
    cases y with
    | none => simp [preLtB] at h2
    | some t =>
      cases z with
      | none => rfl
      | some u => exact charsLtB_trans _ _ _ h1 h2

theorem preLtB_total : ∀ x y : Option String,
    preLtB x y = true ∨ x = y ∨ preLtB y x = true := by
  intro x y
  cases x with
  | none =>
    cases y with
    | none => exact Or.inr (Or.inl rfl)
    | some t => exact Or.inr (Or.inr rfl)
  | some s =>
    cases y with
    | none => exact Or.inl rfl
    | some t =>
      rcases charsLtB_total s.toList t.toList with h | h | h
      · exact Or.inl h
      · exact Or.inr (Or.inl (congrArg some (string_toList_inj h)))
      · exact Or.inr (Or.inr h)

theorem tripLtB_self (x : Nat × Nat × Nat) : tripLtB x x = false := by
  simp [tripLtB]

theorem tripLtB_iff {x y : Nat × Nat × Nat} :
    tripLtB x y = true ↔
      x.1 < y.1 ∨ (x.1 = y.1 ∧ (x.2.1 < y.2.1 ∨ (x.2.1 = y.2.1 ∧ x.2.2 < y.2.2))) := by
  simp [tripLtB]

theorem tripLtB_asymm {x y : Nat × Nat × Nat}
    (h : tripLtB x y = true) : tripLtB y x = false := by
  cases hyx : tripLtB y x
  · rfl
  · rw [tripLtB_iff] at h
    rw [tripLtB_iff] at hyx
    omega

theorem tripLtB_trans {x y z : Nat × Nat × Nat}
    (h1 : tripLtB x y = true) (h2 : tripLtB y z = true) : tripLtB x z = true := by
  rw [tripLtB_iff] at h1 h2 ⊢
  omega

theorem tripLtB_total (x y : Nat × Nat × Nat) :
    tripLtB x y = true ∨ x = y ∨ tripLtB y x = true := by
  rcases x with ⟨a1, a2, a3⟩
  rcases y with ⟨b1, b2, b3⟩
  simp only [tripLtB_iff, Prod.mk.injEq]
  omega

/-- On a well-formed version, the Python truthiness test on the
prerelease slot is just presence. -/
theorem preTruthy_of_wf {v : Version} (h : v.wf) :
    preTruthy v.prerelease = v.prerelease.isSome := by
  cases hv : v.prerelease with
  | none => rfl
  | some s =>
    have hs : s ≠ "" := fun he => h (by rw [hv, he])
    have : s.isEmpty = false := by
      cases hse : s.isEmpty
      · rfl
      · exact absurd ((String.isEmpty_iff s).mp hse) hs
    simp [preTruthy, this]

/-- A well-formed version with a present prerelease tag has a non-empty
tag. -/
theorem wf_isEmpty {v : Version} {s : String} (h : v.wf)
    (hv : v.prerelease = some s) : s.isEmpty = false := by
  cases hse : s.isEmpty
  · rfl
  · exact absurd (by rw [hv, (String.isEmpty_iff s).mp hse]) h

/-- Characterization of `Version.__lt__` on well-formed versions: the
lexicographic order on `(triplet, prerelease-slot)`. -/
theorem ltB_iff_of_wf {a b : Version} (ha : a.wf) (hb : b.wf) :
    a.ltB b = true ↔
      (tripLtB a.trip b.trip = true ∨
        (a.trip = b.trip ∧ preLtB a.prerelease b.prerelease = true)) := by
  unfold Version.ltB
  by_cases htrip : a.trip = b.trip
  · rw [if_neg (by simp [htrip])]
    cases hpa : a.prerelease with
    | none =>
      cases hpb : b.prerelease with
      | none => simp [preTruthy, htrip, tripLtB_self, preLtB]
      | some t =>
        have htb : t.isEmpty = false := wf_isEmpty hb hpb
        simp [preTruthy, htrip, tripLtB_self, preLtB, htb]
    | some s =>
      have hsa : s.isEmpty = false := wf_isEmpty ha hpa
      cases hpb : b.prerelease with
      | none => simp [preTruthy, htrip, tripLtB_self, preLtB, hsa]
      | some t =>
        have htb : t.isEmpty = false := wf_isEmpty hb hpb
        simp [preTruthy, htrip, tripLtB_self, preLtB, hsa, htb]
  · rw [if_pos (by simp [htrip])]
    have hno : ¬ (a.trip = b.trip ∧ preLtB a.prerelease b.prerelease = true) :=
      fun hc => htrip hc.1
    simp [hno]

/-- Characterization of `Version.__eq__`. -/
theorem eqB_iff {a b : Version} :
    a.eqB b = true ↔ (a.trip = b.trip ∧ a.prerelease = b.prerelease) := by
  simp only [Version.eqB, Version.trip, Prod.mk.injEq, Bool.and_eq_true,
    decide_eq_true_eq]
  tauto

theorem vltB_asymm {a b : Version} (ha : a.wf) (hb : b.wf)
    (h : a.ltB b = true) : b.ltB a = false := by
  cases hba : b.ltB a
  · rfl
  · rw [ltB_iff_of_wf ha hb] at h
    rw [ltB_iff_of_wf hb ha] at hba
    rcases h with h | ⟨he, hp⟩
    · rcases hba with h' | ⟨he', hp'⟩
      · have := tripLtB_asymm h
        rw [h'] at this
        cases this
      · rw [he'] at h
        rw [tripLtB_self] at h
        cases h
    · rcases hba with h' | ⟨he', hp'⟩
      · rw [he] at h'
        rw [tripLtB_self] at h'
        cases h'
      · have := preLtB_asymm _ _ hp
        rw [hp'] at this
        cases this

theorem vltB_trans {a b c : Version} (ha : a.wf) (hb : b.wf) (hc : c.wf)
    (h1 : a.ltB b = true) (h2 : b.ltB c = true) : a.ltB c = true := by
  rw [ltB_iff_of_wf ha hb] at h1
  rw [ltB_iff_of_wf hb hc] at h2
  rw [ltB_iff_of_wf ha hc]
  rcases h1 with h1 | ⟨he1, hp1⟩
  · rcases h2 with h2 | ⟨he2, hp2⟩
    · exact Or.inl (tripLtB_trans h1 h2)
    · exact Or.inl (by rw [← he2]; exact h1)
  · rcases h2 with h2 | ⟨he2, hp2⟩
    · exact Or.inl (by rw [he1]; exact h2)
    · exact Or.inr ⟨he1.trans he2, preLtB_trans _ _ _ hp1 hp2⟩

theorem vltB_total {a b : Version} (ha : a.wf) (hb : b.wf) :
    a.ltB b = true ∨ a.eqB b = true ∨ b.ltB a = true := by
  rcases tripLtB_total a.trip b.trip with h | h | h
  · exact Or.inl ((ltB_iff_of_wf ha hb).mpr (Or.inl h))
  · rcases preLtB_total a.prerelease b.prerelease with h' | h' | h'
    · exact Or.inl ((ltB_iff_of_wf ha hb).mpr (Or.inr ⟨h, h'⟩))
    · exact Or.inr (Or.inl (eqB_iff.mpr ⟨h, h'⟩))
    · exact Or.inr (Or.inr ((ltB_iff_of_wf hb ha).mpr (Or.inr ⟨h.symm, h'⟩)))
  · exact Or.inr (Or.inr ((ltB_iff_of_wf hb ha).mpr (Or.inl h)))

/-- C8: on well-formed versions (the spec's data-model invariant: a
present prerelease tag is non-empty), `Version.__lt__` is a strict total
order — asymmetric (hence antisymmetric and irreflexive), transitive, and
total up to `Version.__eq__` — given by lexicographic comparison of
`(major, minor, patch)`, then prerelease-presence (a prerelease sorts
strictly before the same triplet without one), then the prerelease tags as
plain strings; `build` never affects ordering or equality; and
`1.0.0-beta < 1.0.0` while `1.0.0 !< 1.0.0-beta`. -/
theorem c8_version_strict_total_order :
    (∀ a b : Version, a.wf → b.wf → a.ltB b = true → b.ltB a = false) ∧
    (∀ a b c : Version, a.wf → b.wf → c.wf →
      a.ltB b = true → b.ltB c = true → a.ltB c = true) ∧
    (∀ a b : Version, a.wf → b.wf →
      a.ltB b = true ∨ a.eqB b = true ∨ b.ltB a = true) ∧
    (∀ (a b : Version) (x y : Option String),
      Version.ltB { a with build := x } { b with build := y } = a.ltB b ∧
      Version.eqB { a with build := x } { b with build := y } = a.eqB b) ∧
    (Version.ltB { major := 1, minor := 0, patch := 0, prerelease := some "beta" }
        { major := 1, minor := 0, patch := 0 } = true ∧
      Version.ltB { major := 1, minor := 0, patch := 0 }
        { major := 1, minor := 0, patch := 0, prerelease := some "beta" } = false) :=
  ⟨fun _ _ ha hb h => vltB_asymm ha hb h,
   fun _ _ _ ha hb hc h1 h2 => vltB_trans ha hb hc h1 h2,
   fun _ _ ha hb => vltB_total ha hb,
   fun a b _ _ => by cases a; cases b; exact ⟨rfl, rfl⟩,
   by decide⟩

/-- Witness for C8 at concrete versions `1.0.0-alpha` and `1.0.0-beta`. -/
theorem c8_version_strict_total_order_witness :
    (Version.wf { major := 1, minor := 0, patch := 0, prerelease := some "alpha" } ∧
     Version.wf { major := 1, minor := 0, patch := 0, prerelease := some "beta" } ∧
     Version.ltB { major := 1, minor := 0, patch := 0, prerelease := some "alpha" }
       { major := 1, minor := 0, patch := 0, prerelease := some "beta" } = true) ∧
    Version.ltB { major := 1, minor := 0, patch := 0, prerelease := some "beta" }
      { major := 1, minor := 0, patch := 0, prerelease := some "alpha" } = false :=
  ⟨by decide,
   c8_version_strict_total_order.1
     { major := 1, minor := 0, patch := 0, prerelease := some "alpha" }
     { major := 1, minor := 0, patch := 0, prerelease := some "beta" }
     (by decide) (by decide) (by decide)⟩

/-- C9: `get_update_type(from, to)` is `None` exactly when `to <= from`
(first conjunct, no well-formedness needed since it is the literal first
branch); otherwise, on well-formed versions, it names the most significant
component in which `to` differs from `from` — major, then minor, then
patch, then prerelease (second conjunct); and the four concrete examples
from the spec (third conjunct). -/
theorem c9_update_kind :
    (∀ f t : Version, f.get_update_type t = none ↔ t.leB f = true) ∧
    (∀ f t : Version, f.wf → t.wf → t.leB f = false →
      f.get_update_type t =
        some (if t.major ≠ f.major then UpdateKind.major
          else if t.minor ≠ f.minor then UpdateKind.minor
          else if t.patch ≠ f.patch then UpdateKind.patch
          else UpdateKind.prerelease)) ∧
    (Version.get_update_type { major := 1, minor := 0, patch := 0 }
        { major := 1, minor := 0, patch := 1 } = some UpdateKind.patch ∧
     Version.get_update_type { major := 1, minor := 0, patch := 0 }
        { major := 1, minor := 1, patch := 0 } = some UpdateKind.minor ∧
     Version.get_update_type { major := 1, minor := 0, patch := 0 }
        { major := 2, minor := 0, patch := 0 } = some UpdateKind.major ∧
     Version.get_update_type { major := 1, minor := 0, patch := 1 }
        { major := 1, minor := 0, patch := 0 } = none) := by
  refine ⟨?_, ?_, by decide⟩
  · intro f t
    cases h : t.leB f
    · simp only [Version.get_update_type, h, Bool.false_eq_true, if_false]
      constructor
      · intro hc
        exfalso
        revert hc
        split
        · simp
        · split
          · simp
          · split <;> simp
      · intro hc
        cases hc
    · simp [Version.get_update_type, h]
  · intro f t hf ht hnle
    have hlt : f.ltB t = true := by
      rcases vltB_total hf ht with h | h | h
      · exact h
      · exfalso
        have hsym : t.eqB f = true := by
          rw [eqB_iff] at h ⊢
          exact ⟨h.1.symm, h.2.symm⟩
        rw [Version.leB, hsym] at hnle
        simp at hnle
      · exfalso
        rw [Version.leB, h] at hnle
        simp at hnle
    rw [ltB_iff_of_wf hf ht] at hlt
    unfold Version.get_update_type
    rw [if_neg (by simp [hnle])]
    rcases hlt with h | ⟨he, hp⟩
    · rw [tripLtB_iff] at h
      simp only [Version.trip] at h
      rcases h with h | ⟨e1, h⟩
      · have c1 : f.is_major_update t = true := by
          simp only [Version.is_major_update, decide_eq_true_eq]
          omega
        have d1 : t.major ≠ f.major := by omega
        simp [c1, d1]
      · rcases h with h | ⟨e2, h⟩
        · have c1 : f.is_major_update t = false := by
            simp only [Version.is_major_update, decide_eq_false_iff_not]
            omega
          have c2 : f.is_minor_update t = true := by
            simp only [Version.is_minor_update, Bool.and_eq_true, decide_eq_true_eq]
            omega
          have d1 : ¬ (t.major ≠ f.major) := by omega
          have d2 : t.minor ≠ f.minor := by omega
          simp [c1, c2, d1, d2]
        · have c1 : f.is_major_update t = false := by
            simp only [Version.is_major_update, decide_eq_false_iff_not]
            omega
          have c2 : f.is_minor_update t = false := by
            simp only [Version.is_minor_update, Bool.and_eq_false_iff,
              decide_eq_false_iff_not]
            omega
          have c3 : f.is_patch_update t = true := by
            simp only [Version.is_patch_update, Bool.and_eq_true, decide_eq_true_eq]
            omega
          have d1 : ¬ (t.major ≠ f.major) := by omega
          have d2 : ¬ (t.minor ≠ f.minor) := by omega
          have d3 : t.patch ≠ f.patch := by omega
          simp [c1, c2, c3, d1, d2, d3]
    · simp only [Version.trip, Prod.mk.injEq] at he
      obtain ⟨e1, e2, e3⟩ := he
      have c1 : f.is_major_update t = false := by
        simp only [Version.is_major_update, decide_eq_false_iff_not]
        omega
      have c2 : f.is_minor_update t = false := by
        simp only [Version.is_minor_update, Bool.and_eq_false_iff,
          decide_eq_false_iff_not]
        omega
      have c3 : f.is_patch_update t = false := by
        simp only [Version.is_patch_update, Bool.and_eq_false_iff,
          decide_eq_false_iff_not]
        omega
      have d1 : ¬ (t.major ≠ f.major) := by omega
      have d2 : ¬ (t.minor ≠ f.minor) := by omega
      have d3 : ¬ (t.patch ≠ f.patch) := by omega
      simp [c1, c2, c3, d1, d2, d3]

/-- Witness for C9 at `from = 1.0.0`, `to = 1.1.0`. -/
theorem c9_update_kind_witness :
    (Version.leB { major := 1, minor := 1, patch := 0 }
        { major := 1, minor := 0, patch := 0 } = false) ∧
    Version.get_update_type { major := 1, minor := 0, patch := 0 }
        { major := 1, minor := 1, patch := 0 } =
      some (if (1 : Nat) ≠ 1 then UpdateKind.major
        else if (1 : Nat) ≠ 0 then UpdateKind.minor
        else if (0 : Nat) ≠ 0 then UpdateKind.patch
        else UpdateKind.prerelease) :=
  ⟨by decide,
   c9_update_kind.2.1 { major := 1, minor := 0, patch := 0 }
     { major := 1, minor := 1, patch := 0 }
     (by decide) (by decide) (by decide)⟩


/-- C4: `_get_cached_release` returns a release exactly when the cache
file holds a deserializable entry for that release whose age satisfies
`now - cachedAt <= TTL` (1 hour) and whose release version parses and is
strictly greater (the code's `__gt__`) than the current version; an
absent or corrupt file, an expired entry, an unparseable cached tag, or a
non-greater version all yield `None`, and the embedding is a total
function — every exception path of the Python is the `None` branch, so
the read never fails fatally. -/
theorem c4_cache_read (current : Version) (file : CacheFile) (now : Nat)
    (r : GitHubRelease) :
    get_cached_release current file now = some r ↔
      ((∃ t, file = CacheFile.entry t r ∧ now - t ≤ cache_duration) ∧
       (∃ v, r.version? = some v ∧ v.gtB current = true)) := by
  cases file with
  | absent => simp [get_cached_release]
  | corrupt => simp [get_cached_release]
  | entry t r' =>
    simp only [get_cached_release]
    by_cases hage : now - t > cache_duration
    · rw [if_pos hage]
      constructor
      · intro hc
        cases hc
      · rintro ⟨⟨t0, heq, hle⟩, -⟩
        injection heq with h1 h2
        subst h1
        omega
    · rw [if_neg hage]
      cases hv : r'.version? with
      | none =>
        constructor
        · intro hc
          cases hc
        · rintro ⟨⟨t0, heq, hle⟩, v, hv', hgt⟩
          injection heq with h1 h2
          subst h2
          rw [hv] at hv'
          cases hv'
      | some v =>
        dsimp only
        cases hgt : v.gtB current
        · rw [if_neg (by simp)]
          constructor
          · intro hc
            cases hc
          · rintro ⟨⟨t0, heq, hle⟩, v', hv', hgt'⟩
            injection heq with h1 h2
            subst h2
            rw [hv] at hv'
            injection hv' with h3
            subst h3
            rw [hgt] at hgt'
            cases hgt'
        · rw [if_pos rfl]
          constructor
          · intro hc
            injection hc with h1
            subst h1
            exact ⟨⟨t, rfl, by omega⟩, v, hv, hgt⟩
          · rintro ⟨⟨t0, heq, hle⟩, -⟩
            injection heq with h1 h2
            rw [h2]

/-- C3: on any successfully fetched and parsed discovery response — in
either the stable path (`check_prereleases = false`, fetch yields data
`d`) or the prerelease path (fetch yields a list headed by `d`) — and
given that the fetch is reached (a forced check or a cache miss) and the
swallowed cache write succeeds, `check_for_updates` returns the parsed
release exactly when its version is strictly greater than the current
version, writing it to the cache before returning; otherwise it returns
nothing and leaves the cache unchanged. -/
theorem c3_check_for_updates (current : Version) (force : Bool)
    (cache : CacheFile) (now : Nat) (d : ReleaseData) (rest : List ReleaseData)
    (rv : Version)
    (hreach : force = true ∨ get_cached_release current cache now = none)
    (hparse : (parse_release_data d).version? = some rv) :
    (∀ allFetch,
      check_for_updates_once current false force cache now true
          (Except.ok (some d)) allFetch =
        Except.ok (if rv.gtB current = true
          then (some (parse_release_data d),
                CacheFile.entry now (parse_release_data d))
          else (none, cache))) ∧
    (∀ stableFetch,
      check_for_updates_once current true force cache now true
          stableFetch (Except.ok (some (d :: rest))) =
        Except.ok (if rv.gtB current = true
          then (some (parse_release_data d),
                CacheFile.entry now (parse_release_data d))
          else (none, cache))) := by
  have hc : (if force then none else get_cached_release current cache now)
      = none := by
    rcases hreach with h | h
    · simp [h]
    · cases force <;> simp [h]
  constructor
  · intro af
    unfold check_for_updates_once
    rw [hc]
    simp only [Bool.false_eq_true, if_false, hparse, cache_release]
    cases hgt : rv.gtB current <;> simp [hgt]
  · intro sf
    unfold check_for_updates_once
    rw [hc]
    cases hgt : rv.gtB current <;> simp [hgt, hparse, cache_release]

/-- Witness for C3: current version `1.0.0`, remote tag `v1.2.0`. -/
theorem c3_check_for_updates_witness :
    ((parse_release_data
        { tag_name := "v1.2.0", name := "r", body := "", published_at := "",
          html_url := "", zipball_url := some "https://z", prerelease := false,
          assets := [] }).version? =
      some { major := 1, minor := 2, patch := 0 }) ∧
    check_for_updates_once { major := 1, minor := 0, patch := 0 } false true
        CacheFile.absent 0 true
        (Except.ok (some
          { tag_name := "v1.2.0", name := "r", body := "", published_at := "",
            html_url := "", zipball_url := some "https://z", prerelease := false,
            assets := [] }))
        (Except.ok none) =
      Except.ok (if Version.gtB { major := 1, minor := 2, patch := 0 }
            { major := 1, minor := 0, patch := 0 } = true
        then (some (parse_release_data
            { tag_name := "v1.2.0", name := "r", body := "", published_at := "",
              html_url := "", zipball_url := some "https://z", prerelease := false,
              assets := [] }),
          CacheFile.entry 0 (parse_release_data
            { tag_name := "v1.2.0", name := "r", body := "", published_at := "",
              html_url := "", zipball_url := some "https://z", prerelease := false,
              assets := [] }))
        else (none, CacheFile.absent)) :=
  ⟨by decide,
   (c3_check_for_updates { major := 1, minor := 0, patch := 0 } true
      CacheFile.absent 0
      { tag_name := "v1.2.0", name := "r", body := "", published_at := "",
        html_url := "", zipball_url := some "https://z", prerelease := false,
        assets := [] }
      [] { major := 1, minor := 2, patch := 0 }
      (Or.inl rfl) (by decide)).1 (Except.ok none)⟩

/-- C6 counterexample: an HTTP 404 on the all-releases query (the
prerelease path) is raised as an error by `_fetch_all_releases` — whose
only handler re-raises — rather than yielding "no update" as the claim
states for both queries. -/
theorem c6_counterexample :
    fetch_all_releases (HttpOutcome.answered 404 (some [])) =
        Except.error (PyErr.httpError 404) ∧
      fetch_all_releases (HttpOutcome.answered 404 (some [])) ≠
        Except.ok none := by
  refine ⟨rfl, ?_⟩
  intro h
  cases h

/-- Helper: `retry_on_error` surfaces the last attempt's exception when
every attempt fails. -/
theorem retryGo_all_error {α : Type} (attempts : Nat → Except PyErr α)
    (errs : Nat → PyErr) (h : ∀ i, attempts i = Except.error (errs i)) :
    ∀ (rem i : Nat), retryGo attempts i rem = Except.error (errs (i + rem)) := by
  intro rem
  induction rem with
  | zero =>
    intro i
    simpa [retryGo] using h i
  | succ rem ih =>
    intro i
    simp only [retryGo, h i]
    rw [ih (i + 1), show i + 1 + rem = i + (rem + 1) from by omega]

/-- C6 amended: a 404 yields "no update" only on the latest-stable query;
on that query any other non-2xx surfaces as an error, and on the
all-releases query every non-2xx — 404 included — surfaces as an error;
a fetch that fails on every attempt is surfaced by `retry_on_error` after
the bounded attempt budget (`max_retries + 1` calls) is exhausted. -/
theorem c6_amended_404_handling :
    (∀ b, fetch_latest_stable_release (HttpOutcome.answered 404 b) =
      Except.ok none) ∧
    (∀ c b, ¬ (200 ≤ c ∧ c < 300) → c ≠ 404 →
      fetch_latest_stable_release (HttpOutcome.answered c b) =
        Except.error (PyErr.httpError c)) ∧
    (∀ c b, ¬ (200 ≤ c ∧ c < 300) →
      fetch_all_releases (HttpOutcome.answered c b) =
        Except.error (PyErr.httpError c)) ∧
    (∀ (max_retries : Nat) (attempts : Nat → Except PyErr (Option ReleaseData))
        (errs : Nat → PyErr),
      (∀ i, attempts i = Except.error (errs i)) →
      retry_on_error max_retries attempts = Except.error (errs max_retries)) := by
  refine ⟨?_, ?_, ?_, ?_⟩
  · intro b
    have h : ¬ (200 ≤ 404 ∧ 404 < 300) := by decide
    simp [fetch_latest_stable_release, urlopen, h]
  · intro c b h hne
    simp [fetch_latest_stable_release, urlopen, h, hne]
  · intro c b h
    simp [fetch_all_releases, urlopen, h]
  · intro n attempts errs h
    have := retryGo_all_error attempts errs h n 0
    simpa [retry_on_error] using this

/-- Witness for C6's amended statement at status 500 on the all-releases
query. -/
theorem c6_amended_404_handling_witness :
    (¬ (200 ≤ 500 ∧ 500 < 300)) ∧
      fetch_all_releases (HttpOutcome.answered 500 (some [])) =
        Except.error (PyErr.httpError 500) :=
  ⟨by decide, c6_amended_404_handling.2.2.1 500 (some []) (by decide)⟩

/-- Helper: the asset-selection loop picks the first matching asset. -/
theorem find_download_asset_eq_find? : ∀ l : List AssetData,
    find_download_asset l =
      (l.find? asset_matches).map (fun a => (a.browser_download_url, a.size)) := by
  intro l
  induction l with
  | nil => rfl
  | cons a rest ih =>
    cases h : asset_matches a
    · simp [find_download_asset, List.find?, h, ih]
    · simp [find_download_asset, List.find?, h]

/-- C7: provided every listed asset has a non-empty download URL and the
response carries a non-empty `zipball_url` (both guaranteed by the remote
API shape in the spec's external-interface section), the parsed release's
`download_url` is the URL of the first asset whose (lowercased) name ends
in `.zip` or contains "textconverter", falling back to the source-archive
`zipball_url` when no asset matches; in both cases the resulting
`download_url` is non-empty. -/
theorem c7_download_url_selection (d : ReleaseData)
    (hassets : ∀ a ∈ d.assets, falsyOptStr a.browser_download_url = false)
    (hzip : falsyOptStr d.zipball_url = false) :
    ((parse_release_data d).download_url =
      (match d.assets.find? asset_matches with
       | some a => a.browser_download_url
       | none => d.zipball_url)) ∧
    falsyOptStr (parse_release_data d).download_url = false := by
  cases hf : d.assets.find? asset_matches with
  | none =>
    have hnone : find_download_asset d.assets = none := by
      rw [find_download_asset_eq_find?, hf]
      rfl
    have hfn : falsyOptStr none = true := rfl
    constructor
    · simp [parse_release_data, hnone, hfn]
    · simp [parse_release_data, hnone, hfn, hzip]
  | some a =>
    have hmem : a ∈ d.assets := List.mem_of_find?_eq_some hf
    have hfa : falsyOptStr a.browser_download_url = false := hassets a hmem
    have hsome : find_download_asset d.assets =
        some (a.browser_download_url, a.size) := by
      rw [find_download_asset_eq_find?, hf]
      rfl
    constructor
    · simp [parse_release_data, hsome, hfa]
    · simp [parse_release_data, hsome, hfa]

/-- Witness for C7 on a release with one matching binary asset. -/
theorem c7_download_url_selection_witness :
    ((∀ a ∈ [{ name := "TextConverter-1.2.0.zip",
               browser_download_url := some "https://github.test/dl.zip",
               size := 1048576 : AssetData }],
        falsyOptStr a.browser_download_url = false) ∧
      falsyOptStr (some "https://github.test/zipball") = false) ∧
    (parse_release_data
        { tag_name := "v1.2.0", name := "r", body := "", published_at := "",
          html_url := "", zipball_url := some "https://github.test/zipball",
          prerelease := false,
          assets := [{ name := "TextConverter-1.2.0.zip",
                       browser_download_url := some "https://github.test/dl.zip",
                       size := 1048576 }] }).download_url =
      (match ([{ name := "TextConverter-1.2.0.zip",
                 browser_download_url := some "https://github.test/dl.zip",
                 size := 1048576 : AssetData }].find? asset_matches) with
       | some a => a.browser_download_url
       | none => some "https://github.test/zipball") :=
  ⟨by decide,
   (c7_download_url_selection
      { tag_name := "v1.2.0", name := "r", body := "", published_at := "",
        html_url := "", zipball_url := some "https://github.test/zipball",
        prerelease := false,
        assets := [{ name := "TextConverter-1.2.0.zip",
                     browser_download_url := some "https://github.test/dl.zip",
                     size := 1048576 }] }
      (by decide) (by decide)).1⟩

/-- C5 counterexample: a truncated transfer (5 of 10 declared bytes)
makes `download_update` fail (return `None`), but the partial file is NOT
removed — it is still on disk when the call returns, contradicting the
claim's "on every such failure the partially downloaded file is
removed". -/
theorem c5_counterexample :
    (download_update (TransferOutcome.truncated 5 10)).1 = none ∧
      (download_update (TransferOutcome.truncated 5 10)).2 = some 5 ∧
      (download_update (TransferOutcome.truncated 5 10)).2 ≠ none := by
  refine ⟨rfl, rfl, ?_⟩
  intro h
  cases h

/-- C5 amended: `download_update` fails (returns `None` through its
`error_boundary`) on any transport error, non-2xx response, or truncated
transfer; but on failure the partially downloaded file is left in place —
it remains on disk for a truncated or mid-stream-failed transfer, and no
cleanup is performed on any failure path. -/
theorem c5_amended_download_failure :
    ∀ o : TransferOutcome,
      download_update o =
        (match o with
         | TransferOutcome.success n => (some (), some n)
         | TransferOutcome.httpStatusError _ => (none, none)
         | TransferOutcome.truncated recv _ => (none, some recv)
         | TransferOutcome.transportMid recv => (none, some recv)
         | TransferOutcome.transportStart => (none, none)) := by
  intro o
  cases o <;> rfl

/-- C10: the `error_boundary` wrapper converts every exception raised by
the download body into a `None` return — a failed download is observable
only as a `None` result, never as a propagated exception (and in general
`error_boundary` returns its default on any error). -/
theorem c10_download_error_boundary :
    (∀ (o : TransferOutcome) (e : PyErr),
      (download_update_body o).1 = Except.error e →
        (download_update o).1 = none) ∧
    (∀ (α : Type) (d : α) (e : PyErr),
      error_boundary d (Except.error e) = d) := by
  constructor
  · intro o e h
    simp [download_update, error_boundary, safe_execute, h]
  · intro α d e
    rfl

/-- Witness for C10 on a transport failure at connection time. -/
theorem c10_download_error_boundary_witness :
    ((download_update_body TransferOutcome.transportStart).1 =
        Except.error PyErr.urlError) ∧
      (download_update TransferOutcome.transportStart).1 = none :=
  ⟨rfl,
   c10_download_error_boundary.1 TransferOutcome.transportStart PyErr.urlError rfl⟩

/-- C1 counterexample: an update archive containing no app bundle makes
`install_update` raise after the backup was taken; the `except` clause
then "restores" the backup — removing the intact original from the
canonical path — and when that restore copy itself fails, the call
returns `False` with only a partially written bundle at the canonical
path: neither the original nor the new bundle. -/
theorem c1_counterexample :
    (install_update true
        { appPathFound := true, backupCopyFails := false,
          extractFails := false, bundleInArchive := false,
          rmPreAsideFails := false, moveAsideFails := false,
          moveNewInFails := false, rmAsideFails := false,
          moveBackFails := false, restoreRmFails := false,
          restoreCopyFails := true, unlinkFails := false }
        { canonical := some BundleContent.orig, aside := none,
          backup := none }).1 = false ∧
    (install_update true
        { appPathFound := true, backupCopyFails := false,
          extractFails := false, bundleInArchive := false,
          rmPreAsideFails := false, moveAsideFails := false,
          moveNewInFails := false, rmAsideFails := false,
          moveBackFails := false, restoreRmFails := false,
          restoreCopyFails := true, unlinkFails := false }
        { canonical := some BundleContent.orig, aside := none,
          backup := none }).2.canonical = some BundleContent.damaged := by
  exact ⟨rfl, rfl⟩

set_option maxHeartbeats 2000000 in
/-- C1 amended: provided the recovery operations succeed whenever they
are attempted — the rollback move of the aside copy inside
`_replace_application` and the remove-and-copy of `_restore_backup` —
every `install_update` call starting from an intact installed bundle
ends, on success or failure, with exactly one full bundle at the
canonical path: either the fully-installed new bundle or the original
pre-install bundle. (Without that proviso the claim fails, per the
counterexample: the spec itself reserves `RollbackFailed` as the one
fatal outcome.) -/
theorem c1_install_canonical_invariant :
    ∀ (bc : Bool) (f : InstallFaults) (aside backup : Option BundleContent),
      f.moveBackFails = false → f.restoreRmFails = false →
      f.restoreCopyFails = false →
      ((install_update bc f
          { canonical := some BundleContent.orig, aside := aside,
            backup := backup }).2.canonical = some BundleContent.orig ∨
       (install_update bc f
          { canonical := some BundleContent.orig, aside := aside,
            backup := backup }).2.canonical = some BundleContent.newer) := by
  intro bc f aside backup h1 h2 h3
  rcases f with ⟨ap, bk, ex, bi, rp, ma, mn, ra, mb, rr, rc, ul⟩
  simp only at h1 h2 h3
  subst h1
  subst h2
  subst h3
  revert bc ap bk ex bi rp ma mn ra ul aside backup
  decide

/-- Witness for C1's amended invariant: a fault-free install of a new
bundle over the original. -/
theorem c1_install_canonical_invariant_witness :
    ((({ appPathFound := true, backupCopyFails := false,
         extractFails := false, bundleInArchive := true,
         rmPreAsideFails := false, moveAsideFails := false,
         moveNewInFails := false, rmAsideFails := false,
         moveBackFails := false, restoreRmFails := false,
         restoreCopyFails := false, unlinkFails := false } :
        InstallFaults).moveBackFails = false) ∧
     (({ appPathFound := true, backupCopyFails := false,
         extractFails := false, bundleInArchive := true,
         rmPreAsideFails := false, moveAsideFails := false,
         moveNewInFails := false, rmAsideFails := false,
         moveBackFails := false, restoreRmFails := false,
         restoreCopyFails := false, unlinkFails := false } :
        InstallFaults).restoreRmFails = false)) ∧
    ((install_update true
        { appPathFound := true, backupCopyFails := false,
          extractFails := false, bundleInArchive := true,
          rmPreAsideFails := false, moveAsideFails := false,
          moveNewInFails := false, rmAsideFails := false,
          moveBackFails := false, restoreRmFails := false,
          restoreCopyFails := false, unlinkFails := false }
        { canonical := some BundleContent.orig, aside := none,
          backup := none }).2.canonical = some BundleContent.orig ∨
     (install_update true
        { appPathFound := true, backupCopyFails := false,
          extractFails := false, bundleInArchive := true,
          rmPreAsideFails := false, moveAsideFails := false,
          moveNewInFails := false, rmAsideFails := false,
          moveBackFails := false, restoreRmFails := false,
          restoreCopyFails := false, unlinkFails := false }
        { canonical := some BundleContent.orig, aside := none,
          backup := none }).2.canonical = some BundleContent.newer) :=
  ⟨⟨rfl, rfl⟩,
   c1_install_canonical_invariant true
     { appPathFound := true, backupCopyFails := false,
       extractFails := false, bundleInArchive := true,
       rmPreAsideFails := false, moveAsideFails := false,
       moveNewInFails := false, rmAsideFails := false,
       moveBackFails := false, restoreRmFails := false,
       restoreCopyFails := false, unlinkFails := false }
     none none rfl rfl rfl⟩

/-- C2 counterexample: the interleaving in which both callers read the
in-progress flag before either worker thread sets it. Both checks pass,
neither call is rejected, two pipelines start, and both are in flight at
the same time — contradicting "a second call is rejected" and "at most
one pipeline instance executes at a time, even for two near-simultaneous
calls". -/
theorem c2_counterexample :
    (umRun [CallerId.A, CallerId.B, CallerId.A, CallerId.A,
            CallerId.B, CallerId.B]).pipelines = 2 ∧
    (umRun [CallerId.A, CallerId.B, CallerId.A, CallerId.A,
            CallerId.B, CallerId.B]).maxActive = 2 ∧
    (umRun [CallerId.A, CallerId.B, CallerId.A, CallerId.A,
            CallerId.B, CallerId.B]).thA.rejected = false ∧
    (umRun [CallerId.A, CallerId.B, CallerId.A, CallerId.A,
            CallerId.B, CallerId.B]).thB.rejected = false := by
  decide

/-- Invariant for the flag model: a caller still before or at its
flag-set step has not run a pipeline, and a rejected caller is finished
and never ran one. -/
def UMInv (s : UMState) : Prop :=
  (s.thA.pc ≤ 1 → s.thA.worked = false) ∧
  (s.thA.rejected = true → s.thA.pc = 4 ∧ s.thA.worked = false) ∧
  (s.thB.pc ≤ 1 → s.thB.worked = false) ∧
  (s.thB.rejected = true → s.thB.pc = 4 ∧ s.thB.worked = false)

theorem umStep_inv (s : UMState) (who : CallerId) (h : UMInv s) :
    UMInv (umStep s who) := by
  rcases s with ⟨flag, ⟨pcA, rejA, wA⟩, ⟨pcB, rejB, wB⟩, act, mx, pl⟩
  rcases h with ⟨hA1, hA2, hB1, hB2⟩
  cases who with
  | A =>
    rcases pcA with _ | _ | _ | _ | pcA <;>
      cases flag <;>
      simp_all [umStep, threadOf, setThread, UMInv]
  | B =>
    rcases pcB with _ | _ | _ | _ | pcB <;>
      cases flag <;>
      simp_all [umStep, threadOf, setThread, UMInv]

theorem umRun_inv_aux :
    ∀ (sched : List CallerId) (s : UMState),
      UMInv s → UMInv (List.foldl umStep s sched) := by
  intro sched
  induction sched with
  | nil => intro s h; exact h
  | cons who rest ih =>
    intro s h
    exact ih (umStep s who) (umStep_inv s who h)

/-- C2 amended: a `startUpdate`/`checkNow` call whose in-progress check
runs while the flag is set is rejected immediately — it reports "already
in progress", ends without setting the flag, and starts no pipeline
(first two conjuncts: under every schedule a rejected caller never ran a
pipeline body); the rejection branch leaves the pipeline count untouched
(third conjunct). The flag, however, is set only later on the spawned
worker thread, so two near-simultaneous calls can both pass the check
and two pipelines can run concurrently (see the counterexample). -/
theorem c2_in_progress_flag :
    (∀ sched : List CallerId,
      ((umRun sched).thA.rejected = true → (umRun sched).thA.worked = false) ∧
      ((umRun sched).thB.rejected = true → (umRun sched).thB.worked = false)) ∧
    (∀ s : UMState, s.thB.pc = 0 → s.update_in_progress = true →
      (umStep s CallerId.B).thB.rejected = true ∧
      (umStep s CallerId.B).thB.worked = s.thB.worked ∧
      (umStep s CallerId.B).pipelines = s.pipelines ∧
      (umStep s CallerId.B).update_in_progress = true) := by
  constructor
  · intro sched
    have h := umRun_inv_aux sched umInit (by simp [UMInv, umInit])
    exact ⟨fun hr => (h.2.1 hr).2, fun hr => (h.2.2.2 hr).2⟩
  · intro s h0 hflag
    rcases s with ⟨flag, ⟨pcA, rejA, wA⟩, ⟨pcB, rejB, wB⟩, act, mx, pl⟩
    simp only at h0 hflag
    subst h0
    subst hflag
    simp [umStep, threadOf, setThread]

/-- Witness for C2: a schedule on which caller B is rejected, and a
state in which B's check runs while the flag is set. -/
theorem c2_in_progress_flag_witness :
    ((umRun [CallerId.A, CallerId.A, CallerId.B]).thB.rejected = true →
      (umRun [CallerId.A, CallerId.A, CallerId.B]).thB.worked = false) ∧
    ((umRun [CallerId.A, CallerId.A, CallerId.B]).thB.rejected = true ∧
      (umRun [CallerId.A, CallerId.A, CallerId.B]).thB.worked = false) :=
  ⟨(c2_in_progress_flag.1 [CallerId.A, CallerId.A, CallerId.B]).2,
   by decide,
   (c2_in_progress_flag.1 [CallerId.A, CallerId.A, CallerId.B]).2 (by decide)⟩
